import Mathlib

/-
Verification of the GoCoroutine core primitives.

Shallow embedding of:
  * LockFreeRingQueue  (common/lock_free_ring_queue.h)
  * PThreadSwitcher    (concurrence/switcher.h)
  * TSQueue / SList    (common/thread_safe_queue.h)
  * LinkedList         (concurrence/linked_list.h)

All operations of these components either run under a single mutex or are
claimed sequentially consistent in the single-producer/single-consumer case,
so the embedding gives the sequential (uncontended) semantics: every
compare-and-swap loop is modelled by its successful first iteration, which is
the execution it takes when no other thread intervenes between the load and
the CAS.  Machine integers (std::size_t) are modelled as Nat with the bit
width `w` made explicit where overflow or clamping matters.
-/

namespace GoCoroutine

/-! ## LockFreeRingQueue — definitions

Translated from `common/lock_free_ring_queue.h`.  `uint_t` is the index type
(`SizeType`, defaulting to `std::size_t`, 64 bits on the target platform);
its bit width is the parameter `w`. -/

/-- Result pair returned by `Push`/`Pop` (struct `LockFreeResult`). -/
structure LockFreeResult where
  success : Bool := false
  notify : Bool := false
deriving Repr, DecidableEq

/-- Error thrown by the constructor (`std::invalid_argument` in `reCapacity`). -/
inductive CtorError where
  | invalidArgument
deriving Repr, DecidableEq

/-- `reCapacity` from the source: throws on capacity 0, clamps requests at or
above `max/2` of the `w`-bit index type, and otherwise applies the bit-smear
round-up (shift amounts 1,2,4,8,16 exactly as written in the source). -/
def reCapacity (w : Nat) (capacity : Nat) : Except CtorError Nat :=
  if capacity = 0 then
    Except.error CtorError.invalidArgument
  else if (2 ^ w - 1) / 2 ≤ capacity then
    Except.ok ((2 ^ w - 1) / 2)
  else
    let c0 := capacity - 1
    let c1 := c0 ||| (c0 >>> 1)
    let c2 := c1 ||| (c1 >>> 2)
    let c3 := c2 ||| (c2 >>> 4)
    let c4 := c3 ||| (c3 >>> 8)
    let c5 := c4 ||| (c4 >>> 16)
    Except.ok (c5 + 1)

/-- State of a `LockFreeRingQueue<T>`: the slot array (`buffer_`, a slot is
`none` when no element is currently constructed in it) and the four cursors.
All cursor values are kept reduced modulo `capacity_`, as in the source where
every store writes a `mod`-reduced value. -/
structure LFRQ (α : Type) where
  capacity_ : Nat
  buffer : List (Option α)
  write_ : Nat
  writable_ : Nat
  read_ : Nat
  readable_ : Nat
deriving Repr, DecidableEq

/-- Bit-mask reduction `val & (capacity_ - 1)` (member `mod`). -/
def LFRQ.mod (q : LFRQ α) (v : Nat) : Nat := v &&& (q.capacity_ - 1)

/-- `capacity()`: one slot of the array is reserved. -/
def LFRQ.capacity (q : LFRQ α) : Nat := q.capacity_ - 1

/-- The constructor `LockFreeRingQueue(capacity)`: member initializers run
`reCapacity` first (an exception propagates before the body's `malloc`), then
the cursors start at `readable_ = write_ = read_ = 0`,
`writable_ = capacity_ - 1`; `malloc` leaves every slot unconstructed. -/
def mkLockFreeRingQueue (w : Nat) (α : Type) (capacity : Nat) :
    Except CtorError (LFRQ α) := do
  let c ← reCapacity w capacity
  return { capacity_ := c
           buffer := List.replicate c none
           write_ := 0
           writable_ := c - 1
           read_ := 0
           readable_ := 0 }

/-- `Push(U&&)` in its sequential execution: the claim loop loads `write_`
and `writable_` once and its CAS succeeds; the publish loop's CAS (expected
value `write`) succeeds because `readable_ == write` when no other producer
intervenes.  Returns the `LockFreeResult` and the new state. -/
def LFRQ.Push (q : LFRQ α) (v : α) : LockFreeResult × LFRQ α :=
  let write := q.write_
  let writable := q.writable_
  if write = writable then
    ({ success := false, notify := false }, q)
  else
    let q1 : LFRQ α := { q with write_ := q.mod (write + 1) }
    let q2 : LFRQ α := { q1 with buffer := q1.buffer.set write (some v) }
    let readable := q2.readable_
    let q3 : LFRQ α := { q2 with readable_ := q2.mod (readable + 1) }
    ({ success := true, notify := write == q3.mod (writable + 1) }, q3)

/-- `Pop(T&)` in its sequential execution: the claim loop's CAS succeeds, the
slot is moved out and destroyed, and the reclaim CAS (expected value
`mod(read + capacity_ - 1)`) succeeds because that is the quiescent value of
`writable_`.  Returns the result, the value written to the out parameter, and
the new state.  The notify test re-reads the member `readable_`. -/
def LFRQ.Pop (q : LFRQ α) : LockFreeResult × Option α × LFRQ α :=
  let read := q.read_
  let readable := q.readable_
  if read = readable then
    ({ success := false, notify := false }, none, q)
  else
    let q1 : LFRQ α := { q with read_ := q.mod (read + 1) }
    let t := q1.buffer.getD read none
    let q2 : LFRQ α := { q1 with buffer := q1.buffer.set read none }
    let q3 : LFRQ α := { q2 with writable_ := read }
    ({ success := true, notify := read == q3.mod (q3.readable_ + 1) }, t, q3)

/-- Refinement relation: queue state `q` represents the FIFO contents `l`.
`h` is the virtual (unwrapped) head counter: `read_` is its reduction,
`readable_ = write_` sit `l.length` ahead of it, `writable_` one slot behind
it, and the slots holding `l` are constructed.  The slot count is a power of
two (which is what makes the `&&&` mask a genuine modulus). -/
def Abstracts {α : Type} (q : LFRQ α) (l : List α) : Prop :=
  ∃ h k : Nat,
    q.capacity_ = 2 ^ k ∧
    q.buffer.length = q.capacity_ ∧
    l.length < q.capacity_ ∧
    q.read_ = h % q.capacity_ ∧
    q.readable_ = (h + l.length) % q.capacity_ ∧
    q.write_ = q.readable_ ∧
    q.writable_ = (h + (q.capacity_ - 1)) % q.capacity_ ∧
    ∀ i : Nat, i < l.length → q.buffer.getD ((h + i) % q.capacity_) none = l[i]?

/-! A sequence of interleaved `Push`/`Pop` calls, for the FIFO property. -/

/-- One ring-buffer operation of an interleaving. -/
inductive RingOp (α : Type) where
  | push (v : α)
  | pop
deriving Repr, DecidableEq

/-- Whether an operation is a push. -/
def RingOp.isPush {α : Type} : RingOp α → Bool
  | RingOp.push _ => true
  | RingOp.pop => false

/-- Whether an operation is a pop. -/
def RingOp.isPop {α : Type} : RingOp α → Bool
  | RingOp.push _ => false
  | RingOp.pop => true

/-- Run a sequence of operations; returns the successfully pushed values in
order, the successfully popped values in order (a failed `Pop` writes nothing
to its out-parameter), and the final state. -/
def runRing {α : Type} : LFRQ α → List (RingOp α) → List α × List α × LFRQ α
  | q, [] => ([], [], q)
  | q, RingOp.push v :: ops =>
    let r := q.Push v
    let rest := runRing r.2 ops
    (if r.1.success then v :: rest.1 else rest.1, rest.2.1, rest.2.2)
  | q, RingOp.pop :: ops =>
    let r := q.Pop
    let rest := runRing r.2.2 ops
    (rest.1, r.2.1.toList ++ rest.2.1, rest.2.2)

/-! ## PThreadSwitcher — definitions

Translated from `concurrence/switcher.h`.  Every method body runs entirely
under `mtx_`, so concurrent calls serialize and a sequential interleaving
model is exact.  The state is the `waiting_` flag. -/

/-- State of a `PThreadSwitcher` (the `waiting_` flag; `mtx_` and `cv_` carry
no abstract state). -/
structure PThreadSwitcher where
  waiting_ : Bool := false
deriving Repr, DecidableEq

/-- `mark()`: under the lock, `waiting_ = true`. -/
def PThreadSwitcher.mark (s : PThreadSwitcher) : PThreadSwitcher :=
  { s with waiting_ := true }

/-- The state at the moment `sleep()` reaches `cv_.wait`: `sleep()` first
re-executes `waiting_ = true` (its first statement after taking the lock). -/
def PThreadSwitcher.sleepEnter (s : PThreadSwitcher) : PThreadSwitcher :=
  { s with waiting_ := true }

/-- `cv_.wait(lock, pred)` returns without parking the thread iff its
predicate `!waiting_` already holds when `wait` is entered. -/
def PThreadSwitcher.sleepReturnsWithoutParking (s : PThreadSwitcher) : Bool :=
  !(s.sleepEnter).waiting_

/-- `wake()`: under the lock, check-and-clear `waiting_`. -/
def PThreadSwitcher.wake (s : PThreadSwitcher) : Bool × PThreadSwitcher :=
  if !s.waiting_ then (false, s)
  else (true, { s with waiting_ := false })

/-- Run `n` consecutive `wake()` calls (they serialize on `mtx_` in some
order); returns how many of them returned true, and the final state. -/
def PThreadSwitcher.wakeRun (s : PThreadSwitcher) : Nat → Nat × PThreadSwitcher
  | 0 => (0, s)
  | n + 1 =>
    let r := s.wake
    let rest := r.2.wakeRun n
    ((if r.1 then 1 else 0) + rest.1, rest.2)

/-! ## TSQueue — definitions

Translated from `common/thread_safe_queue.h`.  Nodes (`TSQueueHook`) live in
a heap addressed by stable ids; a null pointer is `none`.  The queue's
`check_` member is initialized to `this`, modelled by the id `self`. -/

/-- A `TSQueueHook`: intrusive links plus the owning-queue tag `check_`. -/
structure TSQueueHook where
  prev : Option Nat := none
  next : Option Nat := none
  check_ : Option Nat := none
deriving Repr, DecidableEq

/-- Heap of hooks, addressed by node id. -/
abbrev HookHeap := List (Nat × TSQueueHook)

/-- Dereference a node pointer. -/
def getHook (hp : HookHeap) (i : Nat) : TSQueueHook :=
  ((hp.find? fun p => p.1 == i).map Prod.snd).getD {}

/-- Store through a node pointer. -/
def setHook (hp : HookHeap) (i : Nat) (h : TSQueueHook) : HookHeap :=
  hp.map fun p => if p.1 == i then (i, h) else p

/-- State of a `TSQueue`: `self` models the `this` pointer (stamped into
`check_` of linked nodes), the dummy head/tail pointers and the count. -/
structure TSQueue where
  self : Nat
  head_ : Option Nat
  tail_ : Option Nat
  count_ : Nat
deriving Repr, DecidableEq

/-- `eraseWithoutLock(hook, check, refCount)`: the tag guard, then the
unlink.  Pointer reads happen in source order (each neighbor update re-reads
the heap).  `DecRef` belongs to the external reference-counting collaborator
and does not touch the queue structure, so it has no footprint here. -/
def TSQueue.eraseWithoutLock (hp : HookHeap) (q : TSQueue) (hook : Nat)
    (check : Bool) (refCount : Bool) : Bool × HookHeap × TSQueue :=
  if check && !((getHook hp hook).check_ == some q.self) then (false, hp, q)
  else
    let hp1 := match (getHook hp hook).prev with
      | some p => setHook hp p { getHook hp p with next := (getHook hp hook).next }
      | none => hp
    let hp2 := match (getHook hp1 hook).next with
      | some n => setHook hp1 n { getHook hp1 n with prev := (getHook hp1 hook).prev }
      | none => hp1
    let q2 : TSQueue := match (getHook hp1 hook).next with
      | some _ => q
      | none =>
        if q.tail_ = some hook then
          { q with tail_ := match q.tail_ with
                            | some t => (getHook hp2 t).prev
                            | none => none }
        else q
    let hp3 := setHook hp2 hook
      { getHook hp2 hook with prev := none, next := none, check_ := none }
    let _ := refCount
    (true, hp3, { q2 with count_ := q2.count_ - 1 })

/-- `erase(hook, check)`: takes the structural lock (serializing, no effect
on the abstract state) and calls `eraseWithoutLock` with `refCount = true`. -/
def TSQueue.erase (hp : HookHeap) (q : TSQueue) (hook : Nat) (check : Bool) :
    Bool × HookHeap × TSQueue :=
  TSQueue.eraseWithoutLock hp q hook check true

/-! ## LinkedList — definitions

Translated from `concurrence/linked_list.h`.  Same heap treatment. -/

/-- A `LinkedNode`: the two intrusive links. -/
structure LinkedNode where
  prev : Option Nat := none
  next : Option Nat := none
deriving Repr, DecidableEq

/-- Heap of linked nodes, addressed by node id. -/
abbrev NodeHeap := List (Nat × LinkedNode)

/-- Dereference a node pointer. -/
def getNode (hp : NodeHeap) (i : Nat) : LinkedNode :=
  ((hp.find? fun p => p.1 == i).map Prod.snd).getD {}

/-- Store through a node pointer. -/
def setNode (hp : NodeHeap) (i : Nat) (n : LinkedNode) : NodeHeap :=
  hp.map fun p => if p.1 == i then (i, n) else p

/-- `is_linked()`: whether either link is set. -/
def LinkedNode.is_linked (n : LinkedNode) : Bool :=
  n.prev.isSome || n.next.isSome

/-- State of a `LinkedList`: head and tail pointers. -/
structure LinkedList where
  head_ : Option Nat
  tail_ : Option Nat
deriving Repr, DecidableEq

/-- The constructor runs `clear()`: `head_ = tail_ = nullptr`. -/
def mkLinkedList : LinkedList := { head_ := none, tail_ := none }

/-- `push(node)`: append at the tail; in the empty case `head_ = tail_ =
node` and both of the node's links are set to null. -/
def LinkedList.push (hp : NodeHeap) (l : LinkedList) (node : Nat) :
    NodeHeap × LinkedList :=
  match l.tail_ with
  | none =>
    (setNode hp node { prev := none, next := none },
     { head_ := some node, tail_ := some node })
  | some t =>
    let hp1 := setNode hp t { getNode hp t with next := some node }
    let hp2 := setNode hp1 node { prev := some t, next := none }
    (hp2, { l with tail_ := some node })

/-- `front()`: return `head_` without removing. -/
def LinkedList.front (l : LinkedList) : Option Nat := l.head_

/-! ## Sample states used to instantiate the theorems -/

/-- The state of `LockFreeRingQueue<int>(5)` right after construction:
8 slots, all cursors as the constructor sets them. -/
def qEmpty8 : LFRQ Nat :=
  { capacity_ := 8
    buffer := List.replicate 8 none
    write_ := 0
    writable_ := 7
    read_ := 0
    readable_ := 0 }

/-- A queue with two slots (usable capacity 1) holding one element — a full
queue, as reached by one successful push on a fresh 2-slot queue. -/
def qFull2 : LFRQ Nat :=
  { capacity_ := 2
    buffer := [some 5, none]
    write_ := 1
    writable_ := 1
    read_ := 0
    readable_ := 1 }

/-! ## Helper lemmas -/

/-- Masking with a power of two minus one is reduction modulo that power. -/
theorem land_two_pow_sub_one (x k : Nat) : x &&& (2 ^ k - 1) = x % 2 ^ k := by
  apply Nat.eq_of_testBit_eq
  intro i
  simp [Nat.testBit_and, Nat.testBit_mod_two_pow, Nat.testBit_two_pow_sub_one,
    Bool.and_comm]

/-- Reduced offsets from a common base are injective below the modulus. -/
theorem add_mod_inj {cap h u v : Nat} (hu : u < cap) (hv : v < cap)
    (he : (h + u) % cap = (h + v) % cap) : u = v := by
  have h1 : u ≡ v [MOD cap] := Nat.ModEq.add_left_cancel' h he
  have h2 : u % cap = v % cap := h1
  rwa [Nat.mod_eq_of_lt hu, Nat.mod_eq_of_lt hv] at h2

/-- On a power-of-two slot count the source's mask is a true modulus. -/
theorem LFRQ.mod_eq {α : Type} (q : LFRQ α) {k : Nat}
    (hcap : q.capacity_ = 2 ^ k) (x : Nat) : q.mod x = x % q.capacity_ := by
  rw [LFRQ.mod, hcap, land_two_pow_sub_one]

/-- Unfolding `Push` on the failure path. -/
theorem LFRQ.Push_fail_eq {α : Type} (q : LFRQ α) (v : α)
    (he : q.write_ = q.writable_) :
    q.Push v = ({ success := false, notify := false }, q) := by
  simp [LFRQ.Push, he]

/-- Unfolding `Push` on the success path. -/
theorem LFRQ.Push_succ_eq {α : Type} (q : LFRQ α) (v : α)
    (hne : q.write_ ≠ q.writable_) :
    q.Push v = ({ success := true, notify := q.write_ == q.mod (q.writable_ + 1) },
      { q with write_ := q.mod (q.write_ + 1),
               buffer := q.buffer.set q.write_ (some v),
               readable_ := q.mod (q.readable_ + 1) }) := by
  simp [LFRQ.Push, hne, LFRQ.mod]

/-- Unfolding `Pop` on the failure path. -/
theorem LFRQ.Pop_fail_eq {α : Type} (q : LFRQ α)
    (he : q.read_ = q.readable_) :
    q.Pop = ({ success := false, notify := false }, none, q) := by
  simp [LFRQ.Pop, he]

/-- Unfolding `Pop` on the success path. -/
theorem LFRQ.Pop_succ_eq {α : Type} (q : LFRQ α)
    (hne : q.read_ ≠ q.readable_) :
    q.Pop = ({ success := true, notify := q.read_ == q.mod (q.readable_ + 1) },
      q.buffer.getD q.read_ none,
      { q with read_ := q.mod (q.read_ + 1),
               buffer := q.buffer.set q.read_ none,
               writable_ := q.read_ }) := by
  simp [LFRQ.Pop, hne, LFRQ.mod]

/-- A `Push` into a full queue fails and leaves the state untouched. -/
theorem Push_full {α : Type} {q : LFRQ α} {l : List α} (v : α)
    (hA : Abstracts q l) (hf : l.length = q.capacity) :
    q.Push v = ({ success := false, notify := false }, q) := by
  obtain ⟨h, k, hcap, hlen, hll, hrd, hrdb, hw, hwb, hbuf⟩ := hA
  apply LFRQ.Push_fail_eq
  rw [hw, hrdb, hwb, hf, LFRQ.capacity]

/-- A `Push` into a non-full queue succeeds, raises `notify` exactly on the
empty-to-non-empty edge, and appends the value to the abstract contents. -/
theorem Push_ok {α : Type} {q : LFRQ α} {l : List α} (v : α)
    (hA : Abstracts q l) (hnf : l.length ≠ q.capacity) :
    (q.Push v).1.success = true ∧
    ((q.Push v).1.notify = true ↔ l = []) ∧
    Abstracts (q.Push v).2 (l ++ [v]) := by
  obtain ⟨h, k, hcap, hlen, hll, hrd, hrdb, hw, hwb, hbuf⟩ := hA
  have capPos : 0 < q.capacity_ := by rw [hcap]; exact Nat.two_pow_pos k
  have hne1 : l.length ≠ q.capacity_ - 1 := by rw [LFRQ.capacity] at hnf; exact hnf
  have hcond : q.write_ ≠ q.writable_ := by
    intro he
    rw [hw, hrdb, hwb] at he
    exact hne1 (add_mod_inj hll (Nat.sub_lt capPos one_pos) he)
  rw [LFRQ.Push_succ_eq q v hcond]
  refine ⟨rfl, ?_, ?_⟩
  · show (q.write_ == q.mod (q.writable_ + 1)) = true ↔ l = []
    rw [beq_iff_eq, LFRQ.mod_eq q hcap, hw, hrdb, hwb, Nat.mod_add_mod]
    have hc1 : h + (q.capacity_ - 1) + 1 = h + q.capacity_ := by omega
    rw [hc1, Nat.add_mod_right]
    constructor
    · intro he
      have he0 : (h + l.length) % q.capacity_ = (h + 0) % q.capacity_ := by
        rw [Nat.add_zero]; exact he
      exact List.length_eq_zero.mp (add_mod_inj hll capPos he0)
    · intro he
      rw [he, List.length_nil, Nat.add_zero]
  · refine ⟨h, k, hcap, ?_, ?_, hrd, ?_, ?_, hwb, ?_⟩
    · show (q.buffer.set q.write_ (some v)).length = q.capacity_
      rw [List.length_set]; exact hlen
    · show (l ++ [v]).length < q.capacity_
      rw [List.length_append, List.length_singleton]; omega
    · show q.mod (q.readable_ + 1) = (h + (l ++ [v]).length) % q.capacity_
      rw [LFRQ.mod_eq q hcap, hrdb, Nat.mod_add_mod, List.length_append,
        List.length_singleton, ← Nat.add_assoc]
    · show q.mod (q.write_ + 1) = q.mod (q.readable_ + 1)
      rw [hw]
    · show ∀ i, i < (l ++ [v]).length →
        (q.buffer.set q.write_ (some v)).getD ((h + i) % q.capacity_) none = (l ++ [v])[i]?
      intro i hi
      rw [List.length_append, List.length_singleton] at hi
      rcases Nat.lt_succ_iff_lt_or_eq.mp hi with hi | hi
      · have hneidx : q.write_ ≠ (h + i) % q.capacity_ := by
          rw [hw, hrdb]
          intro he
          exact absurd (add_mod_inj hll (lt_trans hi hll) he).symm (Nat.ne_of_lt hi)
        rw [List.getD_eq_getElem?_getD, List.getElem?_set_ne hneidx,
          ← List.getD_eq_getElem?_getD, hbuf i hi, List.getElem?_append_left hi]
      · have hidx : q.write_ = (h + i) % q.capacity_ := by rw [hw, hrdb, hi]
        have hlt : q.write_ < q.buffer.length := by
          rw [hlen, hidx]; exact Nat.mod_lt _ capPos
        rw [List.getD_eq_getElem?_getD, ← hidx, List.getElem?_set_self hlt, hi,
          List.getElem?_concat_length]
        rfl

/-- A `Pop` from an empty queue fails and leaves the state untouched. -/
theorem Pop_empty {α : Type} {q : LFRQ α} (hA : Abstracts q ([] : List α)) :
    q.Pop = ({ success := false, notify := false }, none, q) := by
  obtain ⟨h, k, hcap, hlen, hll, hrd, hrdb, hw, hwb, hbuf⟩ := hA
  apply LFRQ.Pop_fail_eq
  rw [hrd, hrdb, List.length_nil, Nat.add_zero]

/-- A `Pop` from a non-empty queue succeeds, returns the oldest value, raises
`notify` exactly on the full-to-non-full edge, and drops the head of the
abstract contents. -/
theorem Pop_ok {α : Type} {q : LFRQ α} {x : α} {xs : List α}
    (hA : Abstracts q (x :: xs)) :
    (q.Pop).1.success = true ∧
    ((q.Pop).1.notify = true ↔ (x :: xs).length = q.capacity) ∧
    (q.Pop).2.1 = some x ∧
    Abstracts (q.Pop).2.2 xs := by
  obtain ⟨h, k, hcap, hlen, hll, hrd, hrdb, hw, hwb, hbuf⟩ := hA
  have capPos : 0 < q.capacity_ := by rw [hcap]; exact Nat.two_pow_pos k
  have hlx : (x :: xs).length = xs.length + 1 := rfl
  have hll2 : xs.length + 1 < q.capacity_ := by rw [hlx] at hll; exact hll
  have hcond : q.read_ ≠ q.readable_ := by
    intro he
    rw [hrd, hrdb] at he
    have he0 : (h + 0) % q.capacity_ = (h + (x :: xs).length) % q.capacity_ := by
      rw [Nat.add_zero]; exact he
    have h0 := add_mod_inj capPos hll he0
    rw [hlx] at h0
    omega
  rw [LFRQ.Pop_succ_eq q hcond]
  refine ⟨rfl, ?_, ?_, ?_⟩
  · show (q.read_ == q.mod (q.readable_ + 1)) = true ↔ (x :: xs).length = q.capacity
    rw [beq_iff_eq, LFRQ.mod_eq q hcap, hrd, hrdb, Nat.mod_add_mod, LFRQ.capacity]
    rcases Nat.lt_succ_iff_lt_or_eq.mp (Nat.succ_lt_succ hll2) with hc | hc
    · apply iff_of_false
      · intro he
        have he0 : (h + 0) % q.capacity_ = (h + ((x :: xs).length + 1)) % q.capacity_ := by
          rw [Nat.add_zero, ← Nat.add_assoc]; exact he
        have h0 := add_mod_inj capPos (by rw [hlx]; omega) he0
        omega
      · rw [hlx]; omega
    · apply iff_of_true
      · have hc2 : h + (x :: xs).length + 1 = h + q.capacity_ := by
          rw [hlx]; omega
        rw [hc2, Nat.add_mod_right]
      · rw [hlx]; omega
  · show q.buffer.getD q.read_ none = some x
    have h0 := hbuf 0 (by rw [hlx]; omega)
    rw [Nat.add_zero] at h0
    rw [hrd]
    exact h0.trans List.getElem?_cons_zero
  · refine ⟨h + 1, k, hcap, ?_, ?_, ?_, ?_, ?_, ?_, ?_⟩
    · show (q.buffer.set q.read_ none).length = q.capacity_
      rw [List.length_set]; exact hlen
    · show xs.length < q.capacity_
      omega
    · show q.mod (q.read_ + 1) = (h + 1) % q.capacity_
      rw [LFRQ.mod_eq q hcap, hrd, Nat.mod_add_mod]
    · show q.readable_ = (h + 1 + xs.length) % q.capacity_
      rw [hrdb, hlx]
      congr 1
      omega
    · show q.write_ = q.readable_
      exact hw
    · show q.read_ = (h + 1 + (q.capacity_ - 1)) % q.capacity_
      have hc2 : h + 1 + (q.capacity_ - 1) = h + q.capacity_ := by omega
      rw [hrd, hc2, Nat.add_mod_right]
    · show ∀ i, i < xs.length →
        (q.buffer.set q.read_ none).getD ((h + 1 + i) % q.capacity_) none = xs[i]?
      intro i hi
      have hidx : h + 1 + i = h + (i + 1) := by omega
      rw [hidx]
      have hne2 : q.read_ ≠ (h + (i + 1)) % q.capacity_ := by
        rw [hrd]
        intro he
        have he0 : (h + 0) % q.capacity_ = (h + (i + 1)) % q.capacity_ := by
          rw [Nat.add_zero]; exact he
        have h0 := add_mod_inj capPos (by omega) he0
        omega
      rw [List.getD_eq_getElem?_getD, List.getElem?_set_ne hne2,
        ← List.getD_eq_getElem?_getD, hbuf (i + 1) (by rw [hlx]; omega),
        List.getElem?_cons_succ]

/-- The sample 8-slot queue is a valid empty queue. -/
theorem abstracts_qEmpty8 : Abstracts qEmpty8 ([] : List Nat) := by
  refine ⟨0, 3, by decide, by decide, by decide, by decide, by decide, by decide,
    by decide, ?_⟩
  intro i hi
  exact absurd hi (Nat.not_lt_zero i)

/-- The sample 2-slot queue is a valid full queue holding the value 5. -/
theorem abstracts_qFull2 : Abstracts qFull2 [5] := by
  refine ⟨0, 1, by decide, by decide, by decide, by decide, by decide, by decide,
    by decide, ?_⟩
  intro i hi
  have h0 : i = 0 := Nat.lt_one_iff.mp (by simpa using hi)
  subst h0
  decide

/-- Over any interleaving, the already-buffered values followed by the
successfully pushed ones extend the successfully popped ones: popping only
ever consumes that sequence from the front, in order. -/
theorem runRing_order {α : Type} (ops : List (RingOp α)) :
    ∀ (q : LFRQ α) (l : List α), Abstracts q l →
    ∃ rest, l ++ (runRing q ops).1 = (runRing q ops).2.1 ++ rest := by
  induction ops with
  | nil =>
    intro q l _
    exact ⟨l, by simp [runRing]⟩
  | cons op ops ih =>
    intro q l hA
    cases op with
    | push v =>
      by_cases hf : l.length = q.capacity
      · obtain ⟨rest, hrest⟩ := ih q l hA
        refine ⟨rest, ?_⟩
        simpa [runRing, Push_full v hA hf] using hrest
      · obtain ⟨hs, _, hA2⟩ := Push_ok v hA hf
        obtain ⟨rest, hrest⟩ := ih _ _ hA2
        refine ⟨rest, ?_⟩
        rw [List.append_assoc] at hrest
        simpa [runRing, hs] using hrest
    | pop =>
      cases l with
      | nil =>
        obtain ⟨rest, hrest⟩ := ih q [] hA
        refine ⟨rest, ?_⟩
        simpa [runRing, Pop_empty hA] using hrest
      | cons x xs =>
        obtain ⟨hs, _, ht, hA2⟩ := Pop_ok hA
        obtain ⟨rest, hrest⟩ := ih _ _ hA2
        refine ⟨rest, ?_⟩
        simp [runRing, ht, hrest]

/-- Once `waiting_` is cleared, any number of further `wake()` calls return
false and leave the switcher untouched. -/
theorem wakeRun_cleared (m : Nat) (t : PThreadSwitcher) (ht : t.waiting_ = false) :
    t.wakeRun m = (0, t) := by
  induction m with
  | zero => rfl
  | succ n ih => simp [PThreadSwitcher.wakeRun, PThreadSwitcher.wake, ht, ih]

/-- Reading back an association-list slot right after writing it yields the
written node (or the all-null default when the id is not allocated). -/
theorem getNode_setNode_self (hp : NodeHeap) (i : Nat) (v : LinkedNode) :
    getNode (setNode hp i v) i = v ∨ getNode (setNode hp i v) i = {} := by
  induction hp with
  | nil => right; rfl
  | cons p tl ih =>
    by_cases hj : p.1 = i
    · left
      simp [getNode, setNode, List.find?, hj]
    · have hjb : (p.1 == i) = false := by simpa using hj
      simpa [getNode, setNode, List.find?, hjb] using ih

/-! ## Claim theorems -/

/-- C1: the claim says mark then wake then sleep completes the sleep
immediately because the waiting state is set in `mark()` and not in
`sleep()`.  The code contradicts it: `PThreadSwitcher::sleep` re-executes
`waiting_ = true` before `cv_.wait`, so after `mark()` and a successful
`wake()` the predicate `!waiting_` is false when `cv_.wait` is entered and
`sleep()` parks instead of returning — the wakeup is lost.  This theorem
evaluates the code on that failing sequence. -/
theorem c1_mark_wake_sleep_parks :
    (PThreadSwitcher.wake (PThreadSwitcher.mark { waiting_ := false })).1 = true ∧
    PThreadSwitcher.sleepReturnsWithoutParking
      (PThreadSwitcher.wake (PThreadSwitcher.mark { waiting_ := false })).2 = false :=
  ⟨rfl, rfl⟩

/-- C2: a successful `Push` reports `notify` exactly when the queue was
empty (the empty-to-non-empty edge), and a successful `Pop` reports `notify`
exactly when the queue was full (the full-to-non-full edge); all other
successful operations report `notify = false`. -/
theorem c2_push_pop_notify_edges {α : Type} (q : LFRQ α) (l : List α) (v : α)
    (hA : Abstracts q l) :
    ((q.Push v).1.success = true → ((q.Push v).1.notify = true ↔ l = [])) ∧
    ((q.Pop).1.success = true → ((q.Pop).1.notify = true ↔ l.length = q.capacity)) := by
  constructor
  · intro hs
    by_cases hf : l.length = q.capacity
    · rw [Push_full v hA hf] at hs
      simp at hs
    · exact (Push_ok v hA hf).2.1
  · intro hs
    cases l with
    | nil =>
      rw [Pop_empty hA] at hs
      simp at hs
    | cons x xs => exact (Pop_ok hA).2.1

/-- Witness for C2 at the freshly constructed 8-slot queue. -/
theorem c2_push_pop_notify_edges_witness :
    Abstracts qEmpty8 ([] : List Nat) ∧
    (((qEmpty8.Push 42).1.success = true →
        ((qEmpty8.Push 42).1.notify = true ↔ ([] : List Nat) = [])) ∧
     ((qEmpty8.Pop).1.success = true →
        ((qEmpty8.Pop).1.notify = true ↔ ([] : List Nat).length = qEmpty8.capacity))) :=
  ⟨abstracts_qEmpty8, c2_push_pop_notify_edges qEmpty8 [] 42 abstracts_qEmpty8⟩

/-- C3: over any interleaving of pushes and pops started on an empty queue
(in particular with at most `capacity()` of each), the successfully popped
values are an initial segment of the successfully pushed values, in the same
order — FIFO. -/
theorem c3_fifo_order {α : Type} (q : LFRQ α) (ops : List (RingOp α))
    (hA : Abstracts q ([] : List α))
    (hN : (ops.filter RingOp.isPush).length ≤ q.capacity)
    (hM : (ops.filter RingOp.isPop).length ≤ q.capacity) :
    ∃ rest, (runRing q ops).1 = (runRing q ops).2.1 ++ rest := by
  obtain ⟨rest, hrest⟩ := runRing_order ops q [] hA
  rw [List.nil_append] at hrest
  exact ⟨rest, hrest⟩

/-- Witness for C3: three pushes interleaved with three pops. -/
theorem c3_fifo_order_witness :
    Abstracts qEmpty8 ([] : List Nat) ∧
    (([RingOp.push 1, RingOp.push 2, RingOp.pop, RingOp.push 3, RingOp.pop,
        RingOp.pop].filter RingOp.isPush).length ≤ qEmpty8.capacity) ∧
    (([RingOp.push 1, RingOp.push 2, RingOp.pop, RingOp.push 3, RingOp.pop,
        RingOp.pop].filter RingOp.isPop).length ≤ qEmpty8.capacity) ∧
    ∃ rest,
      (runRing qEmpty8 [RingOp.push 1, RingOp.push 2, RingOp.pop, RingOp.push 3,
        RingOp.pop, RingOp.pop]).1 =
      (runRing qEmpty8 [RingOp.push 1, RingOp.push 2, RingOp.pop, RingOp.push 3,
        RingOp.pop, RingOp.pop]).2.1 ++ rest :=
  ⟨abstracts_qEmpty8, by decide, by decide,
    c3_fifo_order qEmpty8 _ abstracts_qEmpty8 (by decide) (by decide)⟩

/-- C4: after one `mark()` (one sleep cycle), exactly one of K serialized
`wake()` calls returns true; and a `wake()` on a switcher that is not in the
waiting state returns false and leaves the state bit-for-bit unchanged. -/
theorem c4_wake_exactly_one (s : PThreadSwitcher) (K : Nat) (hK : 1 ≤ K) :
    ((s.mark).wakeRun K).1 = 1 ∧
    ∀ t : PThreadSwitcher, t.waiting_ = false → t.wake = (false, t) := by
  constructor
  · obtain ⟨m, rfl⟩ : ∃ m, K = m + 1 := ⟨K - 1, by omega⟩
    simp [PThreadSwitcher.wakeRun, PThreadSwitcher.mark, PThreadSwitcher.wake,
      wakeRun_cleared]
  · intro t ht
    simp [PThreadSwitcher.wake, ht]

/-- Witness for C4 with three wake calls. -/
theorem c4_wake_exactly_one_witness :
    1 ≤ 3 ∧
    (((PThreadSwitcher.mark { waiting_ := false }).wakeRun 3).1 = 1 ∧
     ∀ t : PThreadSwitcher, t.waiting_ = false → t.wake = (false, t)) :=
  ⟨by decide, c4_wake_exactly_one { waiting_ := false } 3 (by decide)⟩

/-- C5: the claim says construction rounds the requested capacity up to the
next power of two of slots (with `capacity()` one less); this holds for the
documented example (5 requested: 8 slots, `capacity() = 7`), but for the
64-bit index type the bit smear stops at `>> 16`, so a requested capacity of
`2^32 + 1` yields `2^33 - 1` slots — not a power of two at all, violating
the claim and the code's own round-to-power-of-two comment. -/
theorem c5_recapacity_rounding_bug :
    reCapacity 64 5 = Except.ok 8 ∧
    (mkLockFreeRingQueue 64 Nat 5).map LFRQ.capacity = Except.ok 7 ∧
    reCapacity 64 (2 ^ 32 + 1) = Except.ok (2 ^ 33 - 1) ∧
    ∀ j : Nat, 2 ^ 33 - 1 ≠ 2 ^ j := by
  refine ⟨rfl, rfl, rfl, ?_⟩
  intro j he
  rcases j with _ | j
  · exact absurd he (by decide)
  · have h4 : 2 ^ (j + 1) % 2 = 0 := by
      rw [Nat.pow_succ]
      exact Nat.mul_mod_left _ _
    have h3 : (2 ^ 33 - 1) % 2 = 1 := by decide
    rw [he] at h3
    omega

/-- C6: a `Push` into a full queue fails with both result bits false and
returns the state (cursors and slots) bit-for-bit unchanged, and a `Pop`
from an empty queue does likewise. -/
theorem c6_full_push_empty_pop_noop {α : Type} (qf qe : LFRQ α) (lf : List α)
    (v : α) (hAf : Abstracts qf lf) (hful : lf.length = qf.capacity)
    (hAe : Abstracts qe ([] : List α)) :
    qf.Push v = ({ success := false, notify := false }, qf) ∧
    qe.Pop = ({ success := false, notify := false }, none, qe) :=
  ⟨Push_full v hAf hful, Pop_empty hAe⟩

/-- Witness for C6: the full 2-slot queue and the fresh empty queue. -/
theorem c6_full_push_empty_pop_noop_witness :
    Abstracts qFull2 [5] ∧ [5].length = qFull2.capacity ∧
    Abstracts qEmpty8 ([] : List Nat) ∧
    (qFull2.Push 9 = ({ success := false, notify := false }, qFull2) ∧
     qEmpty8.Pop = ({ success := false, notify := false }, none, qEmpty8)) :=
  ⟨abstracts_qFull2, by decide, abstracts_qEmpty8,
    c6_full_push_empty_pop_noop qFull2 qEmpty8 [5] 9 abstracts_qFull2 (by decide)
      abstracts_qEmpty8⟩

/-- C7: the claim says requests at or above half the index type's maximum
are clamped and then power-of-two rounded.  The code clamps and returns the
clamped value directly — `2^63 - 1` slots for the 64-bit index type — which
is not a power of two (the rounding the claim describes would give `2^63`),
so the mask-based modulus arithmetic loses its precondition. -/
theorem c7_clamp_skips_rounding :
    reCapacity 64 (2 ^ 63 - 1) = Except.ok (2 ^ 63 - 1) ∧
    reCapacity 64 (2 ^ 64 - 1) = Except.ok (2 ^ 63 - 1) ∧
    ∀ j : Nat, 2 ^ 63 - 1 ≠ 2 ^ j := by
  refine ⟨rfl, rfl, ?_⟩
  intro j he
  rcases j with _ | j
  · exact absurd he (by decide)
  · have h4 : 2 ^ (j + 1) % 2 = 0 := by
      rw [Nat.pow_succ]
      exact Nat.mul_mod_left _ _
    have h3 : (2 ^ 63 - 1) % 2 = 1 := by decide
    rw [he] at h3
    omega

/-- C8: `erase` with checking enabled on a node whose tag names a different
queue returns false and mutates nothing: the heap of nodes (hence both
queues' links and contents) and the queue record (hence its count) are
returned unchanged. -/
theorem c8_erase_tag_mismatch_noop (hp : HookHeap) (q : TSQueue)
    (node tag : Nat) (htag : (getHook hp node).check_ = some tag)
    (hne : tag ≠ q.self) :
    TSQueue.erase hp q node true = (false, hp, q) := by
  rw [TSQueue.erase, TSQueue.eraseWithoutLock, htag]
  simp [hne]

/-- Witness for C8: queue 1 and a node linked in (and tagged by) queue 2. -/
theorem c8_erase_tag_mismatch_noop_witness :
    (getHook [(10, { prev := some 20, next := none, check_ := some 2 }),
              (20, { prev := none, next := some 10, check_ := some 2 })]
        10).check_ = some 2 ∧
    (2 : Nat) ≠ 1 ∧
    TSQueue.erase
      [(10, { prev := some 20, next := none, check_ := some 2 }),
       (20, { prev := none, next := some 10, check_ := some 2 })]
      { self := 1, head_ := some 30, tail_ := some 30, count_ := 0 } 10 true =
    (false,
     [(10, { prev := some 20, next := none, check_ := some 2 }),
      (20, { prev := none, next := some 10, check_ := some 2 })],
     { self := 1, head_ := some 30, tail_ := some 30, count_ := 0 }) :=
  ⟨by decide, by decide,
    c8_erase_tag_mismatch_noop _ _ 10 2 (by decide) (by decide)⟩

/-- C9: pushing a node into an empty `LinkedList` stores null into both of
its links, so `is_linked()` on that node reports false even though the node
is the list's sole element and `front()` returns exactly it. -/
theorem c9_sole_element_not_linked (hp : NodeHeap) (node : Nat) :
    (getNode (LinkedList.push hp mkLinkedList node).1 node).is_linked = false ∧
    (LinkedList.push hp mkLinkedList node).2.front = some node := by
  constructor
  · show (getNode (setNode hp node { prev := none, next := none }) node).is_linked = false
    rcases getNode_setNode_self hp node { prev := none, next := none } with he | he <;>
      rw [he] <;> rfl
  · rfl

/-- C10: constructing a queue with requested capacity 0 throws
`std::invalid_argument` from `reCapacity`, which runs in the member
initializer list — before the constructor body's `malloc`, so nothing is
allocated. -/
theorem c10_zero_capacity_throws :
    reCapacity 64 0 = Except.error CtorError.invalidArgument ∧
    mkLockFreeRingQueue 64 Nat 0 = Except.error CtorError.invalidArgument :=
  ⟨rfl, rfl⟩

end GoCoroutine
